import Mathlib

/-!
Verification of the tile-addressing and cache-refresh engine of
`gps-display.py` against its natural-language specification.

The source is a single Python file.  Its float arithmetic is modelled over
`ℝ`; Python's `int()` conversion (truncation toward zero) is modelled by
`pyInt`.  The pygame / requests / dbus collaborators are modelled by an
explicit environment (`Env`) supplying the cache-file state and network
response for every tile key, and the mutable object state by a record
(`St`) that the translated methods transform explicitly.
-/

namespace GpsDisplay

open Real

/-- Python `int()` applied to a float: truncation toward zero. -/
noncomputable def pyInt (r : ℝ) : ℤ := if 0 ≤ r then ⌊r⌋ else ⌈r⌉

/-- `self.tile_size` (256). -/
def tile_size : ℤ := 256

/-- `self.edge_buffer_percent` (0.10). -/
def edge_buffer_percent : ℝ := 0.10

/-- `self.edge_buffer_pixels = int(self.tile_size * self.edge_buffer_percent)`. -/
noncomputable def edge_buffer_pixels : ℤ := pyInt ((tile_size : ℝ) * edge_buffer_percent)

/-- `self.download_cooldown` (2.0 seconds). -/
def download_cooldown : ℝ := 2

/-- `lon2tile`: `int((lon + 180.0) / 360.0 * (2 ** zoom))`. -/
noncomputable def lon2tile (lon : ℝ) (zoom : ℕ) : ℤ :=
  pyInt ((lon + 180) / 360 * 2 ^ zoom)

/-- The real-valued Mercator row coordinate computed inside `lat2tile`:
`(1.0 - log(tan(lat*pi/180) + 1/cos(lat*pi/180)) / pi) / 2.0 * (2 ** zoom)`. -/
noncomputable def mercY (lat : ℝ) (zoom : ℕ) : ℝ :=
  (1 - Real.log (Real.tan (lat * π / 180) + 1 / Real.cos (lat * π / 180)) / π)
    / 2 * 2 ^ zoom

/-- `lat2tile`: `int(mercY)`. -/
noncomputable def lat2tile (lat : ℝ) (zoom : ℕ) : ℤ := pyInt (mercY lat zoom)

/-- `tile2lon`: `x / (2 ** zoom) * 360.0 - 180.0` (the code always passes an
integer tile number). -/
noncomputable def tile2lon (x : ℤ) (zoom : ℕ) : ℝ := (x : ℝ) / 2 ^ zoom * 360 - 180

/-- `tile2lat` on a real argument:
`n = pi - 2*pi*y/(2**zoom); 180/pi * atan(0.5*(exp n - exp (-n)))`. -/
noncomputable def tile2latR (y : ℝ) (zoom : ℕ) : ℝ :=
  180 / π * Real.arctan ((Real.exp (π - 2 * π * y / 2 ^ zoom)
    - Real.exp (-(π - 2 * π * y / 2 ^ zoom))) / 2)

/-- `tile2lat` as called by the program (integer tile number). -/
noncomputable def tile2lat (y : ℤ) (zoom : ℕ) : ℝ := tile2latR y zoom

/-- The pixel x-offset computed inside `need_new_tile` (and `draw_map`):
`int((lon - tile2lon(x)) * tile_size / (tile2lon(x+1) - tile2lon(x)))`. -/
noncomputable def pixel_offset_x (lon : ℝ) (x : ℤ) (zoom : ℕ) : ℤ :=
  pyInt ((lon - tile2lon x zoom) * (tile_size : ℝ)
    / (tile2lon (x + 1) zoom - tile2lon x zoom))

/-- The pixel y-offset computed inside `need_new_tile` (and `draw_map`):
`int((lat - tile2lat(y)) * tile_size / (tile2lat(y+1) - tile2lat(y)))`. -/
noncomputable def pixel_offset_y (lat : ℝ) (y : ℤ) (zoom : ℕ) : ℤ :=
  pyInt ((lat - tile2lat y zoom) * (tile_size : ℝ)
    / (tile2lat (y + 1) zoom - tile2lat y zoom))

/-- A pygame surface, abstracted to its pixel dimensions plus a tag
distinguishing distinct image contents. -/
structure Surface where
  w : ℕ
  h : ℕ
  tag : ℕ
deriving DecidableEq

/-- `create_fallback_tile` builds a fresh 256 by 256 surface (background fill,
grid lines, crosshair, "No Map Data" text); the drawing is abstracted, the
dimensions are kept. -/
def create_fallback_tile : Surface := ⟨256, 256, 0⟩

/-- The on-disk state of the cache file for one tile key: missing, present
but undecodable (`pygame.image.load` raises), or present and decodable. -/
inductive CacheFile where
  | absent
  | corrupt
  | good (img : Surface)

/-- Outcome of the `requests.get` network fetch for one tile key. -/
inductive NetResult where
  | ok (img : Surface)
  | httpError (code : ℕ)
  | netError
  | decodeError

/-- External world: cache-file state and network response per tile key
`(x, y, zoom)`. -/
structure Env where
  cache : ℤ × ℤ × ℕ → CacheFile
  net : ℤ × ℤ × ℕ → NetResult

/-- A raw value arriving in a D-Bus fix signal: a finite number, a NaN,
or a non-numeric object (e.g. a string). -/
inductive PyVal where
  | num (x : ℝ)
  | nan
  | obj (s : String)

/-- `safe_float` from `on_gpsd_fix`: `float(value)`, with NaN mapped to
`None` and conversion failures caught to `None`. -/
def safe_float : PyVal → Option ℝ
  | .num x => some x
  | .nan => none
  | .obj _ => none

/-- Whether Python `float(v)` succeeds (it raises only on a non-numeric
object; a NaN double converts fine). -/
def float_ok : PyVal → Bool
  | .obj _ => false
  | _ => true

/-- Whether Python `int(v)` succeeds (`int(nan)` raises `ValueError`). -/
def int_ok : PyVal → Bool
  | .num _ => true
  | _ => false

/-- The value of Python `int(v)` when it succeeds. -/
noncomputable def pyIntOfVal : PyVal → ℤ
  | .num x => pyInt x
  | _ => 0

/-- The `new_location` dictionary built by `on_gpsd_fix`. -/
structure Fix where
  latitude : Option ℝ
  longitude : Option ℝ
  altitude : Option ℝ
  accuracy : Option ℝ
  vertical_accuracy : Option ℝ
  speed : Option ℝ
  course : Option ℝ
  climb_rate : Option ℝ
  mode : ℤ
  device : PyVal
  timestamp : PyVal

/-- The mutable fields of `GPSMapDisplay` touched by the core engine. -/
structure St where
  map_center : ℝ × ℝ
  zoom : ℕ
  map_tile : Option Surface
  last_tile_coords : Option (ℤ × ℤ × ℕ)
  last_tile_download_time : ℝ
  current_location : Option Fix

/-- Observable side effects of one `load_map_tile` call: whether the
tile store was consulted (cache lookup reached), whether a network download
was attempted, and which keys were written to the persistent cache. -/
structure Trace where
  storeInvoked : Bool
  downloadAttempted : Bool
  cacheWrites : List (ℤ × ℤ × ℕ)
deriving DecidableEq

/-- The empty trace of an early-returning `load_map_tile` call. -/
def noTrace : Trace := ⟨false, false, []⟩

/-- `load_cached_tile`: returns the decoded surface when the cache file
exists and decodes; a missing file or a decode exception yields `None`. -/
def load_cached_tile (env : Env) (x y : ℤ) (zoom : ℕ) : Option Surface :=
  match env.cache (x, y, zoom) with
  | .good img => some img
  | _ => none

/-- `need_new_tile(new_x, new_y, new_lon, new_lat)`: `True` when no tile is
loaded yet, the zoom or tile coordinates changed, or the in-tile pixel
offset of the focal point is inside the edge buffer. -/
noncomputable def need_new_tile (s : St) (new_x new_y : ℤ) (new_lon new_lat : ℝ) : Bool :=
  match s.last_tile_coords with
  | none => true
  | some (current_x, current_y, current_zoom) =>
    if current_zoom ≠ s.zoom ∨ current_x ≠ new_x ∨ current_y ≠ new_y then true
    else
      let current_pixel_x := pixel_offset_x new_lon current_x s.zoom
      let current_pixel_y := pixel_offset_y new_lat current_y s.zoom
      decide (current_pixel_x < edge_buffer_pixels
        ∨ current_pixel_x > tile_size - edge_buffer_pixels
        ∨ current_pixel_y < edge_buffer_pixels
        ∨ current_pixel_y > tile_size - edge_buffer_pixels)

/-- `load_map_tile`, called at wall time `now`.  Returns the new object
state and the trace of observable effects.  The body's `try` wraps the
whole method; the only statements that can raise are the network fetch and
image decode, both folded into `Env.net`, so the model is total. -/
noncomputable def load_map_tile (env : Env) (now : ℝ) (s : St) : St × Trace :=
  if now - s.last_tile_download_time < download_cooldown then (s, noTrace)
  else if need_new_tile s (lon2tile s.map_center.1 s.zoom) (lat2tile s.map_center.2 s.zoom)
      s.map_center.1 s.map_center.2 = false ∧ s.map_tile.isSome then (s, noTrace)
  else
    match load_cached_tile env (lon2tile s.map_center.1 s.zoom)
        (lat2tile s.map_center.2 s.zoom) s.zoom with
    | some img =>
      ({ s with
          last_tile_coords :=
            some (lon2tile s.map_center.1 s.zoom, lat2tile s.map_center.2 s.zoom, s.zoom)
          map_tile := some img },
        ⟨true, false, []⟩)
    | none =>
      match env.net (lon2tile s.map_center.1 s.zoom, lat2tile s.map_center.2 s.zoom, s.zoom) with
      | .ok img =>
        ({ s with
            last_tile_coords :=
              some (lon2tile s.map_center.1 s.zoom, lat2tile s.map_center.2 s.zoom, s.zoom)
            last_tile_download_time := now
            map_tile := some img },
          ⟨true, true,
            [(lon2tile s.map_center.1 s.zoom, lat2tile s.map_center.2 s.zoom, s.zoom)]⟩)
      | _ =>
        ({ s with
            last_tile_coords :=
              some (lon2tile s.map_center.1 s.zoom, lat2tile s.map_center.2 s.zoom, s.zoom)
            last_tile_download_time := now
            map_tile := some create_fallback_tile },
          ⟨true, true, []⟩)

/-- The zoom-in key handler in `run`: `zoom = min(zoom+1, 18)` then
`load_map_tile()`. -/
noncomputable def zoom_in_key (env : Env) (now : ℝ) (s : St) : St × Trace :=
  load_map_tile env now { s with zoom := min (s.zoom + 1) 18 }

/-- The zoom-out key handler in `run`: `zoom = max(zoom-1, 2)` then
`load_map_tile()`. -/
noncomputable def zoom_out_key (env : Env) (now : ℝ) (s : St) : St × Trace :=
  load_map_tile env now { s with zoom := max (s.zoom - 1) 2 }

/-- `on_gpsd_fix(*args)`: drops events without exactly 15 fields; parses
the positional fields; drops the event when building the dictionary raises
(`int(mode)` on NaN or non-numeric, `float(timestamp)` on non-numeric, all
caught by the method's `except`); updates `current_location`, `map_center`
and triggers `load_map_tile` only when latitude and longitude are truthy
(not `None` from `safe_float` and not `0.0`). -/
noncomputable def on_gpsd_fix (env : Env) (now : ℝ) (s : St) (args : List PyVal) : St :=
  if args.length = 15 then
    let timestamp := args.getD 0 PyVal.nan
    let mode := args.getD 1 PyVal.nan
    let lat := args.getD 3 PyVal.nan
    let lon := args.getD 4 PyVal.nan
    let h_accuracy := args.getD 5 PyVal.nan
    let altitude := args.getD 6 PyVal.nan
    let v_accuracy := args.getD 7 PyVal.nan
    let course := args.getD 8 PyVal.nan
    let speed := args.getD 10 PyVal.nan
    let climb := args.getD 12 PyVal.nan
    let device := args.getD 14 PyVal.nan
    if float_ok timestamp ∧ int_ok mode then
      let new_location : Fix :=
        { latitude := safe_float lat
          longitude := safe_float lon
          altitude := safe_float altitude
          accuracy := safe_float h_accuracy
          vertical_accuracy := safe_float v_accuracy
          speed := safe_float speed
          course := safe_float course
          climb_rate := safe_float climb
          mode := pyIntOfVal mode
          device := device
          timestamp := timestamp }
      match safe_float lat, safe_float lon with
      | some la, some lo =>
        if la ≠ 0 ∧ lo ≠ 0 then
          (load_map_tile env now
            { s with current_location := some new_location, map_center := (lo, la) }).1
        else s
      | _, _ => s
    else s
  else s

/-- A sample decodable tile image used by the concrete scenarios. -/
def imgA : Surface := ⟨256, 256, 1⟩

/-- Environment whose cache holds a decodable file for every key. -/
def envAllCached : Env := ⟨fun _ => CacheFile.good imgA, fun _ => NetResult.ok imgA⟩

/-- Environment with an empty cache and a network that always fails. -/
def envEmptyFail : Env := ⟨fun _ => CacheFile.absent, fun _ => NetResult.netError⟩

/-- Environment with an empty cache and a network that always succeeds. -/
def envEmptyOk : Env := ⟨fun _ => CacheFile.absent, fun _ => NetResult.ok imgA⟩

/-- Concrete scenario state: map centred on longitude -90, latitude 0 at
zoom 1 (tile x=0, y=1), that tile recorded as loaded, and no download
performed yet (`last_tile_download_time = 0`). -/
noncomputable def sBase : St :=
  { map_center := (-90, 0)
    zoom := 1
    map_tile := some imgA
    last_tile_coords := some (0, 1, 1)
    last_tile_download_time := 0
    current_location := none }

/-- Environment whose cache file for tile (0, 1, 1) exists but is corrupt. -/
def envCorruptAt : Env :=
  ⟨fun k => if k = ((0 : ℤ), (1 : ℤ), (1 : ℕ)) then CacheFile.corrupt else CacheFile.absent,
    fun _ => NetResult.ok imgA⟩

/-- A fix event with too few fields. -/
noncomputable def argsShort : List PyVal := [PyVal.num 1, PyVal.num 2]

/-- A 15-field fix event whose latitude (index 3) is NaN. -/
noncomputable def argsNaNLat : List PyVal :=
  [PyVal.num 1700000000, PyVal.num 3, PyVal.num 0.5, PyVal.nan, PyVal.num 51.5,
    PyVal.num 5, PyVal.num 100, PyVal.num 8, PyVal.num 90, PyVal.num 1,
    PyVal.num 2, PyVal.num 1, PyVal.num 0, PyVal.num 1, PyVal.obj "gps0"]

/-- A 15-field fix event whose latitude (index 3) is exactly 0.0 — valid
per the spec's Fix invariant, yet dropped by the code's truthiness test. -/
noncomputable def argsZeroLat : List PyVal :=
  [PyVal.num 1700000000, PyVal.num 3, PyVal.num 0.5, PyVal.num 0, PyVal.num 51.5,
    PyVal.num 5, PyVal.num 100, PyVal.num 8, PyVal.num 90, PyVal.num 1,
    PyVal.num 2, PyVal.num 1, PyVal.num 0, PyVal.num 1, PyVal.obj "gps0"]

/-- Concrete scenario state: zoom 16, a download performed at time 100. -/
noncomputable def sRecentDownload : St :=
  { map_center := (-90, 0)
    zoom := 16
    map_tile := some imgA
    last_tile_coords := some (0, 0, 16)
    last_tile_download_time := 100
    current_location := none }

/- ### Basic facts about `pyInt` -/

theorem pyInt_of_nonneg {r : ℝ} (h : 0 ≤ r) : pyInt r = ⌊r⌋ := if_pos h

theorem pyInt_intCast (n : ℤ) : pyInt n = n := by
  unfold pyInt
  rcases le_or_lt 0 (n : ℝ) with h | h
  · rw [if_pos h, Int.floor_intCast]
  · rw [if_neg (not_le.mpr h), Int.ceil_intCast]

theorem pyInt_zero : pyInt 0 = 0 := by
  simpa using pyInt_intCast 0

theorem pyInt_eq_of_bounds {r : ℝ} {n : ℤ} (h0 : 0 ≤ r) (h1 : (n : ℝ) ≤ r)
    (h2 : r < n + 1) : pyInt r = n := by
  rw [pyInt_of_nonneg h0]
  exact Int.floor_eq_iff.mpr ⟨h1, h2⟩

theorem edge_buffer_pixels_eq : edge_buffer_pixels = 25 := by
  unfold edge_buffer_pixels tile_size edge_buffer_percent
  apply pyInt_eq_of_bounds <;> norm_num

/- ### Shape lemmas for `load_map_tile` -/

theorem load_map_tile_cooldown {env : Env} {now : ℝ} {s : St}
    (h : now - s.last_tile_download_time < download_cooldown) :
    load_map_tile env now s = (s, noTrace) := by
  unfold load_map_tile
  rw [if_pos h]

theorem load_map_tile_cache_hit {env : Env} {now : ℝ} {s : St} {x y : ℤ} {img : Surface}
    (hcool : ¬(now - s.last_tile_download_time < download_cooldown))
    (hx : lon2tile s.map_center.1 s.zoom = x)
    (hy : lat2tile s.map_center.2 s.zoom = y)
    (hskip : ¬(need_new_tile s x y s.map_center.1 s.map_center.2 = false ∧ s.map_tile.isSome))
    (hc : load_cached_tile env x y s.zoom = some img) :
    load_map_tile env now s =
      ({ s with last_tile_coords := some (x, y, s.zoom), map_tile := some img },
        ⟨true, false, []⟩) := by
  subst hx
  subst hy
  unfold load_map_tile
  rw [if_neg hcool, if_neg hskip, hc]

theorem load_map_tile_download_ok {env : Env} {now : ℝ} {s : St} {x y : ℤ} {img : Surface}
    (hcool : ¬(now - s.last_tile_download_time < download_cooldown))
    (hx : lon2tile s.map_center.1 s.zoom = x)
    (hy : lat2tile s.map_center.2 s.zoom = y)
    (hskip : ¬(need_new_tile s x y s.map_center.1 s.map_center.2 = false ∧ s.map_tile.isSome))
    (hmiss : load_cached_tile env x y s.zoom = none)
    (hnet : env.net (x, y, s.zoom) = NetResult.ok img) :
    load_map_tile env now s =
      ({ s with
          last_tile_coords := some (x, y, s.zoom)
          last_tile_download_time := now
          map_tile := some img },
        ⟨true, true, [(x, y, s.zoom)]⟩) := by
  subst hx
  subst hy
  unfold load_map_tile
  rw [if_neg hcool, if_neg hskip, hmiss, hnet]

theorem load_map_tile_download_fail {env : Env} {now : ℝ} {s : St} {x y : ℤ}
    (hcool : ¬(now - s.last_tile_download_time < download_cooldown))
    (hx : lon2tile s.map_center.1 s.zoom = x)
    (hy : lat2tile s.map_center.2 s.zoom = y)
    (hskip : ¬(need_new_tile s x y s.map_center.1 s.map_center.2 = false ∧ s.map_tile.isSome))
    (hmiss : load_cached_tile env x y s.zoom = none)
    (hnet : ∀ img, env.net (x, y, s.zoom) ≠ NetResult.ok img) :
    load_map_tile env now s =
      ({ s with
          last_tile_coords := some (x, y, s.zoom)
          last_tile_download_time := now
          map_tile := some create_fallback_tile },
        ⟨true, true, []⟩) := by
  subst hx
  subst hy
  unfold load_map_tile
  rw [if_neg hcool, if_neg hskip, hmiss]
  rcases hn : env.net (lon2tile s.map_center.1 s.zoom, lat2tile s.map_center.2 s.zoom, s.zoom)
    with img | c | _ | _
  · exact absurd hn (hnet img)
  · rfl
  · rfl
  · rfl

theorem download_sets_time {env : Env} {now : ℝ} {s : St}
    (h : (load_map_tile env now s).2.downloadAttempted = true) :
    (load_map_tile env now s).1.last_tile_download_time = now := by
  unfold load_map_tile at h ⊢
  by_cases h1 : now - s.last_tile_download_time < download_cooldown
  · rw [if_pos h1] at h
    simp [noTrace] at h
  · rw [if_neg h1] at h ⊢
    by_cases h2 : need_new_tile s (lon2tile s.map_center.1 s.zoom)
        (lat2tile s.map_center.2 s.zoom) s.map_center.1 s.map_center.2 = false
        ∧ s.map_tile.isSome
    · rw [if_pos h2] at h
      simp [noTrace] at h
    · rw [if_neg h2] at h ⊢
      rcases hc : load_cached_tile env (lon2tile s.map_center.1 s.zoom)
          (lat2tile s.map_center.2 s.zoom) s.zoom with _ | img
      · rcases hn : env.net (lon2tile s.map_center.1 s.zoom,
            lat2tile s.map_center.2 s.zoom, s.zoom) with img2 | c | _ | _ <;> rfl
      · rw [hc] at h
        exact Bool.noConfusion h

/- ### Evaluation lemmas at concrete points -/

theorem tile2lon_zero_one : tile2lon 0 1 = -180 := by
  unfold tile2lon
  norm_num

theorem tile2lon_one_one : tile2lon 1 1 = 0 := by
  unfold tile2lon
  norm_num

theorem lon2tile_m90_one : lon2tile (-90) 1 = 0 := by
  unfold lon2tile
  apply pyInt_eq_of_bounds <;> norm_num

theorem mercY_zero (zoom : ℕ) : mercY 0 zoom = 2 ^ zoom / 2 := by
  unfold mercY
  rw [zero_mul, zero_div, Real.tan_zero, Real.cos_zero]
  norm_num [Real.log_one]
  ring

theorem lat2tile_zero_one : lat2tile 0 1 = 1 := by
  rw [lat2tile, mercY_zero]
  rw [show ((2 : ℝ) ^ (1 : ℕ) / 2) = ((1 : ℤ) : ℝ) by norm_num]
  exact pyInt_intCast 1

theorem tile2lat_one_one : tile2lat 1 1 = 0 := by
  unfold tile2lat tile2latR
  rw [show π - 2 * π * ((1 : ℤ) : ℝ) / 2 ^ (1 : ℕ) = 0 by push_cast; ring_nf]
  rw [neg_zero, Real.exp_zero]
  norm_num [Real.arctan_zero]

theorem tile2lat_two_one_neg : tile2lat 2 1 < 0 := by
  unfold tile2lat tile2latR
  rw [show π - 2 * π * ((2 : ℤ) : ℝ) / 2 ^ (1 : ℕ) = -π by push_cast; ring_nf]
  have hexp : Real.exp (-π) - Real.exp (-(-π)) < 0 := by
    rw [neg_neg]
    have := Real.exp_lt_exp.mpr (show -π < π by linarith [Real.pi_pos])
    linarith
  have harc : Real.arctan ((Real.exp (-π) - Real.exp (-(-π))) / 2) < 0 := by
    calc Real.arctan ((Real.exp (-π) - Real.exp (-(-π))) / 2)
        < Real.arctan 0 := Real.arctan_strictMono (by nlinarith)
      _ = 0 := Real.arctan_zero
  have hpos : (0 : ℝ) < 180 / π := by
    positivity
  exact mul_neg_of_pos_of_neg hpos harc

theorem pixel_offset_y_zero_one : pixel_offset_y 0 1 1 = 0 := by
  unfold pixel_offset_y
  rw [tile2lat_one_one]
  rw [show ((0 : ℝ) - 0) * (tile_size : ℝ) / (tile2lat (1 + 1) 1 - 0) = 0 by ring]
  exact pyInt_zero

theorem pixel_offset_x_m90_one : pixel_offset_x (-90) 0 1 = 128 := by
  unfold pixel_offset_x
  rw [show ((0 : ℤ) + 1) = 1 by norm_num, tile2lon_zero_one, tile2lon_one_one]
  rw [show ((-90 : ℝ) - -180) * (tile_size : ℝ) / (0 - -180) = ((128 : ℤ) : ℝ) by
    unfold tile_size; push_cast; ring_nf]
  exact pyInt_intCast 128

theorem need_new_tile_sBase_edge : need_new_tile sBase 0 1 (-90) 0 = true := by
  unfold need_new_tile sBase
  simp only [decide_eq_true_eq]
  rw [if_neg (by simp)]
  rw [pixel_offset_y_zero_one, edge_buffer_pixels_eq]
  norm_num

/- ### Claim C5 -/

/-- Claim C5 counterexample: at longitude exactly 180 the computed tile
x-coordinate is 2 to the zoom (here zoom 0, so x = 1), which violates
`x < 2 ^ zoom`; no wrapping into the convention range happens. -/
theorem lon2tile_antimeridian_out_of_range :
    lon2tile 180 0 = 1 ∧ ¬(lon2tile 180 0 < 2 ^ 0) := by
  have h : lon2tile 180 0 = 1 := by
    unfold lon2tile
    rw [show ((180 : ℝ) + 180) / 360 * 2 ^ (0 : ℕ) = ((1 : ℤ) : ℝ) by norm_num]
    exact pyInt_intCast 1
  refine ⟨h, ?_⟩
  rw [h]
  decide

/-- Claim C5 (amended): `lon2tile` performs no wrapping of the longitude.
At longitude -180 it returns tile x = 0, in range; at longitude exactly
+180 it returns x = 2 ^ zoom, which is out of range `[0, 2 ^ zoom)`, at
every zoom level. -/
theorem lon2tile_no_wrap_at_antimeridian (zoom : ℕ) :
    lon2tile (-180) zoom = 0 ∧ lon2tile 180 zoom = 2 ^ zoom ∧ ¬(lon2tile 180 zoom < 2 ^ zoom) := by
  have h0 : lon2tile (-180) zoom = 0 := by
    unfold lon2tile
    rw [show ((-180 : ℝ) + 180) / 360 * 2 ^ zoom = 0 by norm_num]
    exact pyInt_zero
  have h1 : lon2tile 180 zoom = 2 ^ zoom := by
    unfold lon2tile
    rw [show ((180 : ℝ) + 180) / 360 * 2 ^ zoom = (((2 ^ zoom : ℤ)) : ℝ) by push_cast; ring]
    exact pyInt_intCast _
  exact ⟨h0, h1, by rw [h1]; exact lt_irrefl _⟩

/- ### Claim C3, counterexample part -/

/-- Claim C3 counterexample: the spec example is wrong on this code; the
point with longitude -0.787166 at zoom 16 lands in tile x = 32624, not
x = 32676. -/
theorem zoom16_example_tile_x_mismatch :
    lon2tile (-0.787166) 16 = 32624 ∧ (32624 : ℤ) ≠ 32676 := by
  constructor
  · unfold lon2tile
    apply pyInt_eq_of_bounds <;> norm_num
  · decide

/- ### Claim C2 -/

/-- Claim C2: a zoom-level change does NOT bypass the cooldown.  With a
download performed at time 100, pressing the zoom-in key at time 101
(1 s later, inside the 2 s cooldown) leaves the map tile, the planned tile
coordinates (still at zoom 16) and the download time unchanged, and never
reaches the tile store: `load_map_tile` returns at the cooldown gate even
though `self.zoom` was already incremented.  This contradicts both the
spec ("zoom change forces an immediate full replan") and the code's own
comment ("Force reload on zoom change"). -/
theorem zoom_key_blocked_by_cooldown :
    zoom_in_key envAllCached 101 sRecentDownload = ({ sRecentDownload with zoom := 17 }, noTrace)
    ∧ ({ sRecentDownload with zoom := 17 }).map_tile = some imgA
    ∧ ({ sRecentDownload with zoom := 17 }).last_tile_coords = some (0, 0, 16) := by
  refine ⟨?_, rfl, rfl⟩
  unfold zoom_in_key
  rw [show min (sRecentDownload.zoom + 1) 18 = 17 by norm_num [sRecentDownload]]
  exact load_map_tile_cooldown (by norm_num [sRecentDownload, download_cooldown])

/- ### Claim C1 -/

/-- Claim C1 counterexample: two refresh triggers 0.5 s apart (less than
the 2 s cooldown) each result in a TileStore invocation, because the first
is served from the cache and a cache hit does not update
`last_tile_download_time`; the second is not suppressed. -/
theorem two_cache_served_triggers_within_cooldown :
    (load_map_tile envAllCached 100 sBase).2.storeInvoked = true
    ∧ (load_map_tile envAllCached 100.5 (load_map_tile envAllCached 100 sBase).1).2.storeInvoked
        = true
    ∧ (100.5 : ℝ) - 100 < download_cooldown := by
  have hx : lon2tile sBase.map_center.1 sBase.zoom = 0 := by
    show lon2tile (-90) 1 = 0
    exact lon2tile_m90_one
  have hy : lat2tile sBase.map_center.2 sBase.zoom = 1 := by
    show lat2tile 0 1 = 1
    exact lat2tile_zero_one
  have hskip : ¬(need_new_tile sBase 0 1 sBase.map_center.1 sBase.map_center.2 = false
      ∧ sBase.map_tile.isSome) := by
    have : need_new_tile sBase 0 1 sBase.map_center.1 sBase.map_center.2 = true := by
      show need_new_tile sBase 0 1 (-90) 0 = true
      exact need_new_tile_sBase_edge
    simp [this]
  have hc : load_cached_tile envAllCached 0 1 sBase.zoom = some imgA := rfl
  have h1 : load_map_tile envAllCached 100 sBase =
      ({ sBase with last_tile_coords := some (0, 1, sBase.zoom), map_tile := some imgA },
        ⟨true, false, []⟩) :=
    load_map_tile_cache_hit (by norm_num [sBase, download_cooldown]) hx hy hskip hc
  have hstate : ({ sBase with
      last_tile_coords := some (0, 1, sBase.zoom)
      map_tile := some imgA } : St) = sBase := rfl
  rw [h1, hstate]
  have h2 : load_map_tile envAllCached 100.5 sBase =
      ({ sBase with last_tile_coords := some (0, 1, sBase.zoom), map_tile := some imgA },
        ⟨true, false, []⟩) :=
    load_map_tile_cache_hit (by norm_num [sBase, download_cooldown]) hx hy hskip hc
  rw [h2]
  refine ⟨rfl, rfl, by norm_num [download_cooldown]⟩

/-- Claim C1 (amended): the cooldown is armed only by a download attempt.
Whenever a `load_map_tile` call at time `now` attempts a network download,
any further call less than `download_cooldown` seconds later is fully
suppressed at the cooldown gate: it leaves the state unchanged, makes no
TileStore invocation and no network call, regardless of how far the
position moved. -/
theorem download_arms_cooldown (env env2 : Env) (now now2 : ℝ) (s : St)
    (hdl : (load_map_tile env now s).2.downloadAttempted = true)
    (hlt : now2 - now < download_cooldown) :
    load_map_tile env2 now2 (load_map_tile env now s).1 = ((load_map_tile env now s).1, noTrace) := by
  apply load_map_tile_cooldown
  rw [download_sets_time hdl]
  exact hlt

/-- Witness for `download_arms_cooldown`: from `sBase` with an empty cache
the call at time 10 downloads; the call at time 11 (1 s later) is
suppressed. -/
theorem download_arms_cooldown_witness :
    (load_map_tile envEmptyOk 10 sBase).2.downloadAttempted = true
    ∧ (11 : ℝ) - 10 < download_cooldown
    ∧ load_map_tile envEmptyOk 11 (load_map_tile envEmptyOk 10 sBase).1
        = ((load_map_tile envEmptyOk 10 sBase).1, noTrace) := by
  have hx : lon2tile sBase.map_center.1 sBase.zoom = 0 := lon2tile_m90_one
  have hy : lat2tile sBase.map_center.2 sBase.zoom = 1 := lat2tile_zero_one
  have hskip : ¬(need_new_tile sBase 0 1 sBase.map_center.1 sBase.map_center.2 = false
      ∧ sBase.map_tile.isSome) := by
    have : need_new_tile sBase 0 1 sBase.map_center.1 sBase.map_center.2 = true :=
      need_new_tile_sBase_edge
    simp [this]
  have h1 : load_map_tile envEmptyOk 10 sBase =
      ({ sBase with
          last_tile_coords := some (0, 1, sBase.zoom)
          last_tile_download_time := 10
          map_tile := some imgA },
        ⟨true, true, [(0, 1, sBase.zoom)]⟩) :=
    load_map_tile_download_ok (by norm_num [sBase, download_cooldown]) hx hy hskip rfl rfl
  have hdl : (load_map_tile envEmptyOk 10 sBase).2.downloadAttempted = true := by
    rw [h1]
  have hlt : (11 : ℝ) - 10 < download_cooldown := by norm_num [download_cooldown]
  exact ⟨hdl, hlt, download_arms_cooldown envEmptyOk envEmptyOk 10 11 sBase hdl hlt⟩

theorem sBase_not_skip :
    ¬(need_new_tile sBase 0 1 sBase.map_center.1 sBase.map_center.2 = false
      ∧ sBase.map_tile.isSome) := by
  have h : need_new_tile sBase 0 1 sBase.map_center.1 sBase.map_center.2 = true :=
    need_new_tile_sBase_edge
  simp [h]

/- ### Claim C8 -/

/-- Claim C8: when the cache lookup fails (absent or corrupt file) and the
network fetch fails in any way (non-200 status, timeout/transport error, or
decode error), `load_map_tile` completes without raising (the model is
total: the method's blanket `except` absorbs every raise), installs the
synthesized fallback tile — a non-empty 256 by 256 surface — as the current
map tile, and writes nothing to the persistent cache. -/
theorem fallback_on_failure (env : Env) (now : ℝ) (s : St) (x y : ℤ)
    (hcool : ¬(now - s.last_tile_download_time < download_cooldown))
    (hx : lon2tile s.map_center.1 s.zoom = x)
    (hy : lat2tile s.map_center.2 s.zoom = y)
    (hskip : ¬(need_new_tile s x y s.map_center.1 s.map_center.2 = false ∧ s.map_tile.isSome))
    (hmiss : load_cached_tile env x y s.zoom = none)
    (hnet : ∀ img, env.net (x, y, s.zoom) ≠ NetResult.ok img) :
    (load_map_tile env now s).1.map_tile = some create_fallback_tile
    ∧ create_fallback_tile.w ≠ 0 ∧ create_fallback_tile.h ≠ 0
    ∧ (load_map_tile env now s).2.cacheWrites = [] := by
  rw [load_map_tile_download_fail hcool hx hy hskip hmiss hnet]
  exact ⟨rfl, by decide, by decide, rfl⟩

/-- Witness for `fallback_on_failure`: empty cache, failing network, from
`sBase` at time 10. -/
theorem fallback_on_failure_witness :
    (load_map_tile envEmptyFail 10 sBase).1.map_tile = some create_fallback_tile
    ∧ (load_map_tile envEmptyFail 10 sBase).2.cacheWrites = [] := by
  have h := fallback_on_failure envEmptyFail 10 sBase 0 1
    (by norm_num [sBase, download_cooldown]) lon2tile_m90_one lat2tile_zero_one
    sBase_not_skip rfl (fun img hser => NetResult.noConfusion hser)
  exact ⟨h.1, h.2.2.2⟩

/- ### Claim C9 -/

/-- Claim C9: (a) when a decodable cache file exists for the computed tile
key and the load proceeds past the gates, `load_map_tile` installs the
cached image and attempts no network download; (b) a corrupt cache file is
treated identically to an absent one: replacing a corrupt entry by an
absent one changes nothing about the call's result. -/
theorem cache_short_circuit_and_corrupt_as_miss :
    (∀ (env : Env) (now : ℝ) (s : St) (x y : ℤ) (img : Surface),
      ¬(now - s.last_tile_download_time < download_cooldown) →
      lon2tile s.map_center.1 s.zoom = x →
      lat2tile s.map_center.2 s.zoom = y →
      ¬(need_new_tile s x y s.map_center.1 s.map_center.2 = false ∧ s.map_tile.isSome) →
      load_cached_tile env x y s.zoom = some img →
      (load_map_tile env now s).1.map_tile = some img
        ∧ (load_map_tile env now s).2.downloadAttempted = false)
    ∧ (∀ (env : Env) (k : ℤ × ℤ × ℕ), env.cache k = CacheFile.corrupt →
        ∀ (now : ℝ) (s : St),
          load_map_tile ⟨Function.update env.cache k CacheFile.absent, env.net⟩ now s
            = load_map_tile env now s) := by
  constructor
  · intro env now s x y img hcool hx hy hskip hc
    rw [load_map_tile_cache_hit hcool hx hy hskip hc]
    exact ⟨rfl, rfl⟩
  · intro env k hk now s
    have hl : ∀ a b c, load_cached_tile ⟨Function.update env.cache k CacheFile.absent, env.net⟩
        a b c = load_cached_tile env a b c := by
      intro a b c
      unfold load_cached_tile
      by_cases hkk : (a, b, c) = k
      · subst hkk
        show (match Function.update env.cache (a, b, c) CacheFile.absent (a, b, c) with
          | CacheFile.good img => some img
          | _ => none) = _
        rw [Function.update_same, hk]
      · show (match Function.update env.cache k CacheFile.absent (a, b, c) with
          | CacheFile.good img => some img
          | _ => none) = _
        rw [Function.update_noteq hkk]
    unfold load_map_tile
    simp only [hl]

/-- Witness for `cache_short_circuit_and_corrupt_as_miss`: part (a) at the
all-cached environment from `sBase` at time 10; part (b) at the
environment whose entry for tile (0, 1, 1) is corrupt. -/
theorem cache_short_circuit_and_corrupt_as_miss_witness :
    ((load_map_tile envAllCached 10 sBase).1.map_tile = some imgA
      ∧ (load_map_tile envAllCached 10 sBase).2.downloadAttempted = false)
    ∧ load_map_tile
        ⟨Function.update envCorruptAt.cache ((0 : ℤ), (1 : ℤ), (1 : ℕ)) CacheFile.absent,
          envCorruptAt.net⟩ 10 sBase
        = load_map_tile envCorruptAt 10 sBase := by
  constructor
  · exact cache_short_circuit_and_corrupt_as_miss.1 envAllCached 10 sBase 0 1 imgA
      (by norm_num [sBase, download_cooldown]) lon2tile_m90_one lat2tile_zero_one
      sBase_not_skip rfl
  · exact cache_short_circuit_and_corrupt_as_miss.2 envCorruptAt ((0 : ℤ), (1 : ℤ), (1 : ℕ))
      (by simp [envCorruptAt]) 10 sBase

/- ### Claim C10 -/

/-- Claim C10: a fix event that does not carry exactly 15 fields, or whose
latitude or longitude parses to `None` (NaN or non-numeric), leaves the
state — in particular `current_location` and `map_center` — unchanged, and
raises no error (the model is total; the method's `except` absorbs every
raise).  As the claim notes, a latitude or longitude of exactly 0.0 is
likewise dropped, because the code tests validity by truthiness. -/
theorem invalid_fix_leaves_state_unchanged (env : Env) (now : ℝ) (s : St) (args : List PyVal)
    (h : args.length ≠ 15
      ∨ safe_float (args.getD 3 PyVal.nan) = none
      ∨ safe_float (args.getD 3 PyVal.nan) = some 0
      ∨ safe_float (args.getD 4 PyVal.nan) = none
      ∨ safe_float (args.getD 4 PyVal.nan) = some 0) :
    on_gpsd_fix env now s args = s := by
  by_cases hlen : args.length = 15
  · simp only [on_gpsd_fix]
    rw [if_pos hlen]
    by_cases hok : float_ok (args.getD 0 PyVal.nan) = true ∧ int_ok (args.getD 1 PyVal.nan) = true
    · rw [if_pos hok]
      rcases h3 : safe_float (args.getD 3 PyVal.nan) with _ | la
      · rfl
      · rcases h4 : safe_float (args.getD 4 PyVal.nan) with _ | lo
        · rfl
        · have hz : la = 0 ∨ lo = 0 := by
            rcases h with h | h | h | h | h
            · exact absurd hlen h
            · rw [h3] at h
              exact Option.noConfusion h
            · rw [h3] at h
              exact Or.inl (Option.some.inj h)
            · rw [h4] at h
              exact Option.noConfusion h
            · rw [h4] at h
              exact Or.inr (Option.some.inj h)
          rcases hz with hz | hz <;> subst hz <;> simp
    · rw [if_neg hok]
  · simp only [on_gpsd_fix]
    rw [if_neg hlen]

/-- Witness for `invalid_fix_leaves_state_unchanged`: a 2-field event, a
15-field event with NaN latitude, and a 15-field event with latitude 0.0
all leave the state unchanged. -/
theorem invalid_fix_leaves_state_unchanged_witness :
    on_gpsd_fix envAllCached 0 sBase argsShort = sBase
    ∧ on_gpsd_fix envAllCached 0 sBase argsNaNLat = sBase
    ∧ on_gpsd_fix envAllCached 0 sBase argsZeroLat = sBase := by
  refine ⟨?_, ?_, ?_⟩
  · exact invalid_fix_leaves_state_unchanged envAllCached 0 sBase argsShort
      (Or.inl (by simp [argsShort]))
  · exact invalid_fix_leaves_state_unchanged envAllCached 0 sBase argsNaNLat
      (Or.inr (Or.inl rfl))
  · exact invalid_fix_leaves_state_unchanged envAllCached 0 sBase argsZeroLat
      (Or.inr (Or.inr (Or.inl rfl)))

/- ### Claim C7 -/

theorem pixel_offset_y_half_tile : pixel_offset_y (tile2lat 2 1 / 2) 1 1 = 128 := by
  unfold pixel_offset_y
  rw [show ((1 : ℤ) + 1) = 2 by norm_num, tile2lat_one_one]
  have hT : tile2lat 2 1 ≠ 0 := ne_of_lt tile2lat_two_one_neg
  rw [show (tile2lat 2 1 / 2 - 0) * (tile_size : ℝ) / (tile2lat 2 1 - 0) = ((128 : ℤ) : ℝ) by
    unfold tile_size
    push_cast
    field_simp
    ring]
  exact pyInt_intCast 128

/-- Claim C7: with the previously loaded tile equal to the newly computed
tile at the current zoom, `need_new_tile` returns true exactly when the
focal point's in-tile pixel offset lies within the 25-pixel edge buffer
(10 percent of the 256-pixel tile size, truncated) of one of the four tile
edges — distance to the left/top edge is the offset itself, distance to
the right/bottom edge is 256 minus the offset; the witness shows it
returns false for a point at the tile center. -/
theorem need_new_tile_edge_buffer_iff (s : St) (x y : ℤ) (lon lat : ℝ)
    (h : s.last_tile_coords = some (x, y, s.zoom)) :
    (need_new_tile s x y lon lat = true ↔
      (pixel_offset_x lon x s.zoom < 25 ∨ 256 - pixel_offset_x lon x s.zoom < 25
        ∨ pixel_offset_y lat y s.zoom < 25 ∨ 256 - pixel_offset_y lat y s.zoom < 25)) := by
  simp only [need_new_tile, h]
  rw [if_neg (show ¬(s.zoom ≠ s.zoom ∨ x ≠ x ∨ y ≠ y) by simp)]
  simp only [decide_eq_true_eq]
  rw [edge_buffer_pixels_eq]
  unfold tile_size
  omega

/-- Witness for `need_new_tile_edge_buffer_iff`: in scenario `sBase`
(previous tile = computed tile = (0, 1) at zoom 1) the tile-center point
(pixel offsets 128, 128) does not trigger, while the tile-top-edge point
(pixel y-offset 0) does. -/
theorem need_new_tile_edge_buffer_iff_witness :
    sBase.last_tile_coords = some (0, 1, sBase.zoom)
    ∧ need_new_tile sBase 0 1 (-90) (tile2lat 2 1 / 2) = false
    ∧ need_new_tile sBase 0 1 (-90) 0 = true := by
  refine ⟨rfl, ?_, ?_⟩
  · have hiff := need_new_tile_edge_buffer_iff sBase 0 1 (-90) (tile2lat 2 1 / 2) rfl
    have hfalse : ¬(pixel_offset_x (-90) 0 sBase.zoom < 25
        ∨ 256 - pixel_offset_x (-90) 0 sBase.zoom < 25
        ∨ pixel_offset_y (tile2lat 2 1 / 2) 1 sBase.zoom < 25
        ∨ 256 - pixel_offset_y (tile2lat 2 1 / 2) 1 sBase.zoom < 25) := by
      have h1 : pixel_offset_x (-90) 0 sBase.zoom = 128 := pixel_offset_x_m90_one
      have h2 : pixel_offset_y (tile2lat 2 1 / 2) 1 sBase.zoom = 128 := pixel_offset_y_half_tile
      rw [h1, h2]
      norm_num
    cases hb : need_new_tile sBase 0 1 (-90) (tile2lat 2 1 / 2)
    · rfl
    · exact absurd (hiff.mp hb) hfalse
  · refine (need_new_tile_edge_buffer_iff sBase 0 1 (-90) 0 rfl).mpr ?_
    have h2 : pixel_offset_y 0 1 sBase.zoom = 0 := pixel_offset_y_zero_one
    rw [h2]
    norm_num

/- ### Analytic groundwork for the Mercator claims -/

theorem cos_double_sin (x : ℝ) : Real.cos (2 * x) = 1 - 2 * Real.sin x ^ 2 := by
  have h := Real.sin_sq_add_cos_sq x
  rw [Real.cos_two_mul]
  linarith

/-- Inside the principal range, the quantity the code feeds to `log` equals
`arsinh` of the tangent: `tan x + 1 / cos x = tan x + sqrt (1 + tan x ^ 2)`. -/
theorem log_tan_add_sec {x : ℝ} (h1 : -(π / 2) < x) (h2 : x < π / 2) :
    Real.log (Real.tan x + 1 / Real.cos x) = Real.arsinh (Real.tan x) := by
  have hcos : 0 < Real.cos x := Real.cos_pos_of_mem_Ioo ⟨h1, h2⟩
  have hsq : Real.sqrt (1 + Real.tan x ^ 2) = 1 / Real.cos x := by
    have hinv := Real.inv_one_add_tan_sq hcos.ne'
    have h1t : (1 : ℝ) + Real.tan x ^ 2 = (1 / Real.cos x) ^ 2 := by
      have h := congrArg Inv.inv hinv
      rw [inv_inv] at h
      rw [h, one_div, inv_pow]
    rw [h1t]
    exact Real.sqrt_sq (by positivity)
  unfold Real.arsinh
  rw [hsq]

theorem deg_in_principal {lat : ℝ} (h1 : -85.05 ≤ lat) (h2 : lat ≤ 85.05) :
    -(π / 2) < lat * π / 180 ∧ lat * π / 180 < π / 2 := by
  constructor <;> nlinarith [Real.pi_pos]

/- Numeric core: `tan (85.05 degrees) < sinh π`, i.e. the code's Mercator
band is slightly narrower than the tile-0 band. -/

theorem exp_three_lower : (20.0855369 : ℝ) < Real.exp 3 := by
  have h := Real.exp_one_gt_d9
  have h3 : Real.exp 3 = Real.exp 1 * Real.exp 1 * Real.exp 1 := by
    rw [← Real.exp_add, ← Real.exp_add]
    norm_num
  rw [h3]
  nlinarith [Real.exp_pos 1]

theorem exp_small_lower : (1.1520683 : ℝ) < Real.exp 0.141592 := by
  have hb := Real.exp_bound (x := 0.141592) (by rw [abs_of_pos] <;> norm_num)
    (n := 4) (by norm_num)
  have hsum : ∑ m ∈ Finset.range 4, (0.141592 : ℝ) ^ m / m.factorial
      = 1 + 0.141592 + 0.141592 ^ 2 / 2 + 0.141592 ^ 3 / 6 := by
    simp [Finset.sum_range_succ, Nat.factorial]
  rw [hsum] at hb
  have habs : |(0.141592 : ℝ)| = 0.141592 := by rw [abs_of_pos] ; norm_num
  rw [habs] at hb
  have hbound : (((4 : ℕ).succ : ℝ)) / (((4 : ℕ).factorial : ℝ) * (4 : ℕ)) = 5 / 96 := by
    norm_num [Nat.factorial]
  rw [hbound] at hb
  have := abs_le.mp hb
  nlinarith [this.1, this.2]

theorem exp_pi_lower : (23.1399 : ℝ) < Real.exp π := by
  have hpi : (3.141592 : ℝ) < π := Real.pi_gt_d6
  have hmono : Real.exp 3.141592 < Real.exp π := Real.exp_lt_exp.mpr hpi
  have hsplit : Real.exp (3.141592 : ℝ) = Real.exp 3 * Real.exp 0.141592 := by
    rw [← Real.exp_add]
    norm_num
  nlinarith [exp_three_lower, exp_small_lower, hmono, hsplit, Real.exp_pos 3,
    Real.exp_pos (0.141592 : ℝ)]

theorem sinh_pi_lower : (11.5483 : ℝ) < Real.sinh π := by
  have hexp := exp_pi_lower
  have hneg : Real.exp (-π) < 0.0432157 := by
    rw [Real.exp_neg]
    have h0 : (0 : ℝ) < Real.exp π := Real.exp_pos π
    rw [inv_lt (by positivity) (by norm_num)]
    calc (0.0432157 : ℝ)⁻¹ < 23.1399 := by norm_num
    _ < Real.exp π := hexp
  rw [Real.sinh_eq]
  nlinarith [hexp, hneg]

theorem u_sin_lower : (0.0862834 : ℝ) < Real.sin (11 * π / 400) := by
  have hpl : (3.141592 : ℝ) < π := Real.pi_gt_d6
  have hpu : π < 3.141593 := Real.pi_lt_d6
  have hul : (0.086393 : ℝ) < 11 * π / 400 := by nlinarith
  have huu : 11 * π / 400 < 0.08639381 := by nlinarith
  have hu0 : (0 : ℝ) < 11 * π / 400 := by nlinarith
  have habs : |(11 * π / 400 : ℝ)| = 11 * π / 400 := abs_of_pos hu0
  have hb := Real.sin_bound (x := 11 * π / 400) (by rw [habs]; nlinarith)
  rw [habs] at hb
  have hb2 := (abs_le.mp hb).1
  have h3 : (11 * π / 400 : ℝ) ^ 3 ≤ 0.08639381 ^ 3 :=
    pow_le_pow_left hu0.le huu.le 3
  have h4 : (11 * π / 400 : ℝ) ^ 4 ≤ 0.08639381 ^ 4 :=
    pow_le_pow_left hu0.le huu.le 4
  nlinarith [hb2, h3, h4, hul]

theorem u_cos_upper : Real.cos (11 * π / 400) < 0.9962711 := by
  have hpl : (3.141592 : ℝ) < π := Real.pi_gt_d6
  have hpu : π < 3.141593 := Real.pi_lt_d6
  have hul : (0.086393 : ℝ) < 11 * π / 400 := by nlinarith
  have huu : 11 * π / 400 < 0.08639381 := by nlinarith
  have hu0 : (0 : ℝ) < 11 * π / 400 := by nlinarith
  have habs : |(11 * π / 400 : ℝ)| = 11 * π / 400 := abs_of_pos hu0
  have hb := Real.cos_bound (x := 11 * π / 400) (by rw [habs]; nlinarith)
  rw [habs] at hb
  have hb2 := (abs_le.mp hb).2
  have h2 : (0.086393 : ℝ) ^ 2 ≤ (11 * π / 400) ^ 2 :=
    pow_le_pow_left (by norm_num) hul.le 2
  have h4 : (11 * π / 400 : ℝ) ^ 4 ≤ 0.08639381 ^ 4 :=
    pow_le_pow_left hu0.le huu.le 4
  nlinarith [hb2, h2, h4]

/-- The key band inequality: the tangent at 85.05 degrees is below
`sinh π`, so the code's whole band (-85.05, 85.05) maps inside tile row
range. -/
theorem tan_8505_lt_sinh_pi : Real.tan (85.05 * π / 180.0) < Real.sinh π := by
  have hsplit : (85.05 : ℝ) * π / 180.0 = π / 2 - 11 * π / 400 := by ring
  have hsin : Real.sin (85.05 * π / 180.0) = Real.cos (11 * π / 400) := by
    rw [hsplit, Real.sin_pi_div_two_sub]
  have hcos : Real.cos (85.05 * π / 180.0) = Real.sin (11 * π / 400) := by
    rw [hsplit, Real.cos_pi_div_two_sub]
  have hsinu : (0.0862834 : ℝ) < Real.sin (11 * π / 400) := u_sin_lower
  have hcosu : Real.cos (11 * π / 400) < 0.9962711 := u_cos_upper
  have hsinh := sinh_pi_lower
  rw [Real.tan_eq_sin_div_cos, hsin, hcos]
  rw [div_lt_iff (by linarith)]
  nlinarith

/- ### Band bounds and the inverse identity -/

theorem arsinh_tan_band {lat : ℝ} (h1 : -85.05 ≤ lat) (h2 : lat ≤ 85.05) :
    -π < Real.arsinh (Real.tan (lat * π / 180)) ∧
      Real.arsinh (Real.tan (lat * π / 180)) < π := by
  obtain ⟨hp1, hp2⟩ := deg_in_principal h1 h2
  have hπ := Real.pi_pos
  have hθu : (85.05 : ℝ) * π / 180 < π / 2 := by nlinarith
  have hθl : -(π / 2) < (85.05 : ℝ) * π / 180 := by nlinarith
  have hmem1 : lat * π / 180 ∈ Set.Ioo (-(π / 2)) (π / 2) := ⟨hp1, hp2⟩
  have hmem2 : (85.05 : ℝ) * π / 180 ∈ Set.Ioo (-(π / 2)) (π / 2) := ⟨hθl, hθu⟩
  have hmem3 : -((85.05 : ℝ) * π / 180) ∈ Set.Ioo (-(π / 2)) (π / 2) := by
    constructor <;> nlinarith
  have hle : lat * π / 180 ≤ 85.05 * π / 180 := by nlinarith
  have hge : -((85.05 : ℝ) * π / 180) ≤ lat * π / 180 := by nlinarith
  have htu : Real.tan (lat * π / 180) ≤ Real.tan (85.05 * π / 180) :=
    Real.strictMonoOn_tan.monotoneOn hmem1 hmem2 hle
  have htl : Real.tan (-(85.05 * π / 180)) ≤ Real.tan (lat * π / 180) :=
    Real.strictMonoOn_tan.monotoneOn hmem3 hmem1 hge
  rw [Real.tan_neg] at htl
  have hkey : Real.tan (85.05 * π / 180.0) < Real.sinh π := tan_8505_lt_sinh_pi
  constructor
  · have : Real.arsinh (-Real.sinh π) < Real.arsinh (Real.tan (lat * π / 180)) :=
      Real.arsinh_lt_arsinh.mpr (by nlinarith)
    rwa [← Real.sinh_neg, Real.arsinh_sinh] at this
  · have : Real.arsinh (Real.tan (lat * π / 180)) < Real.arsinh (Real.sinh π) :=
      Real.arsinh_lt_arsinh.mpr (by nlinarith)
    rwa [Real.arsinh_sinh] at this

theorem mercY_eq_arsinh {lat : ℝ} (h1 : -85.05 ≤ lat) (h2 : lat ≤ 85.05) (zoom : ℕ) :
    mercY lat zoom
      = (1 - Real.arsinh (Real.tan (lat * π / 180)) / π) / 2 * 2 ^ zoom := by
  obtain ⟨hp1, hp2⟩ := deg_in_principal h1 h2
  unfold mercY
  rw [log_tan_add_sec hp1 hp2]

theorem mercY_band {lat : ℝ} (h1 : -85.05 ≤ lat) (h2 : lat ≤ 85.05) (zoom : ℕ) :
    0 < mercY lat zoom ∧ mercY lat zoom < 2 ^ zoom := by
  obtain ⟨hl, hu⟩ := arsinh_tan_band h1 h2
  rw [mercY_eq_arsinh h1 h2 zoom]
  have hπ := Real.pi_pos
  have h2z : (0 : ℝ) < 2 ^ zoom := by positivity
  have hq1 : Real.arsinh (Real.tan (lat * π / 180)) / π < 1 := (div_lt_one hπ).mpr hu
  have hq2 : -1 < Real.arsinh (Real.tan (lat * π / 180)) / π := by
    rw [lt_div_iff hπ]
    linarith
  constructor
  · nlinarith
  · nlinarith

/-- The code's `tile2lat` inverts the Mercator row coordinate exactly. -/
theorem tile2latR_mercY {lat : ℝ} (h1 : -85.05 ≤ lat) (h2 : lat ≤ 85.05) (zoom : ℕ) :
    tile2latR (mercY lat zoom) zoom = lat := by
  obtain ⟨hp1, hp2⟩ := deg_in_principal h1 h2
  have hπ : π ≠ 0 := Real.pi_ne_zero
  have h2z : (2 : ℝ) ^ zoom ≠ 0 := by positivity
  have hn : π - 2 * π * mercY lat zoom / 2 ^ zoom
      = Real.arsinh (Real.tan (lat * π / 180)) := by
    rw [mercY_eq_arsinh h1 h2 zoom]
    field_simp
    ring
  unfold tile2latR
  rw [hn]
  rw [show (Real.exp (Real.arsinh (Real.tan (lat * π / 180)))
      - Real.exp (-Real.arsinh (Real.tan (lat * π / 180)))) / 2
      = Real.sinh (Real.arsinh (Real.tan (lat * π / 180))) from (Real.sinh_eq _).symm]
  rw [Real.sinh_arsinh, Real.arctan_tan hp1 hp2]
  field_simp
  ring

/-- The code's `tile2lat` is strictly decreasing in the row coordinate. -/
theorem tile2latR_strict_anti {t1 t2 : ℝ} (h : t1 < t2) (zoom : ℕ) :
    tile2latR t2 zoom < tile2latR t1 zoom := by
  have hπ := Real.pi_pos
  have h2z : (0 : ℝ) < 2 ^ zoom := by positivity
  have hn : π - 2 * π * t2 / 2 ^ zoom < π - 2 * π * t1 / 2 ^ zoom := by
    have hd : 2 * π * t1 / 2 ^ zoom < 2 * π * t2 / 2 ^ zoom :=
      (div_lt_div_right h2z).mpr (by nlinarith)
    linarith
  unfold tile2latR
  have hsinh : ∀ x : ℝ, (Real.exp x - Real.exp (-x)) / 2 = Real.sinh x :=
    fun x => (Real.sinh_eq x).symm
  rw [hsinh, hsinh]
  have harc : Real.arctan (Real.sinh (π - 2 * π * t2 / 2 ^ zoom))
      < Real.arctan (Real.sinh (π - 2 * π * t1 / 2 ^ zoom)) :=
    Real.arctan_strictMono (Real.sinh_lt_sinh.mpr hn)
  have hfac : (0 : ℝ) < 180 / π := by positivity
  exact mul_lt_mul_of_pos_left harc hfac

theorem tile2latR_anti {t1 t2 : ℝ} (h : t1 ≤ t2) (zoom : ℕ) :
    tile2latR t2 zoom ≤ tile2latR t1 zoom := by
  rcases h.eq_or_lt with rfl | hlt
  · exact le_rfl
  · exact (tile2latR_strict_anti hlt zoom).le

/- ### Claim C6 -/

/-- Claim C6 counterexample: latitude 85.05 lies outside the spec's valid
Mercator band, yet `lat2tile` neither yields NaN nor signals an error — at
zoom 0 it silently returns the in-range tile row 0. -/
theorem lat2tile_out_of_band_in_range :
    lat2tile 85.05 0 = 0 ∧ (0 : ℤ) ≤ 0 ∧ (0 : ℤ) < 2 ^ 0 := by
  refine ⟨?_, le_refl 0, by decide⟩
  have hb := mercY_band (show (-85.05 : ℝ) ≤ 85.05 by norm_num) (le_refl (85.05 : ℝ)) 0
  unfold lat2tile
  apply pyInt_eq_of_bounds hb.1.le
  · push_cast
    linarith [hb.1]
  · push_cast
    have h2 := hb.2
    norm_num at h2
    linarith

/-- Claim C6 (amended): for the out-of-band latitudes ±85.05 the
conversion silently computes an in-range tile row at every zoom level —
there is no error, no NaN and no out-of-range result anywhere near the
band edge. -/
theorem lat2tile_out_of_band_silent (zoom : ℕ) :
    (0 ≤ lat2tile 85.05 zoom ∧ lat2tile 85.05 zoom < 2 ^ zoom)
    ∧ (0 ≤ lat2tile (-85.05) zoom ∧ lat2tile (-85.05) zoom < 2 ^ zoom) := by
  constructor
  · have hb := mercY_band (show (-85.05 : ℝ) ≤ 85.05 by norm_num) (le_refl (85.05 : ℝ)) zoom
    unfold lat2tile
    rw [pyInt_of_nonneg hb.1.le]
    refine ⟨Int.floor_nonneg.mpr hb.1.le, ?_⟩
    rw [Int.floor_lt]
    push_cast
    exact hb.2
  · have hb := mercY_band (le_refl (-85.05 : ℝ)) (show (-85.05 : ℝ) ≤ 85.05 by norm_num) zoom
    unfold lat2tile
    rw [pyInt_of_nonneg hb.1.le]
    refine ⟨Int.floor_nonneg.mpr hb.1.le, ?_⟩
    rw [Int.floor_lt]
    push_cast
    exact hb.2

/- ### Claim C4 -/

/-- Claim C4: for any point with longitude in [-180, 180), latitude inside
the valid Mercator band and any zoom up to 18, the round trip
`tileToGeo (geoToTile p)` — the NW corner of the computed tile — differs
from the point by at most one tile's longitude span (360 / 2 ^ zoom) and at
most one tile's latitude span (the latitude difference between this tile's
NW corner and the next row's). -/
theorem tile_roundtrip_within_one_tile (lon lat : ℝ) (zoom : ℕ)
    (hlon1 : -180 ≤ lon) (hlon2 : lon < 180)
    (hlat1 : -85.05 < lat) (hlat2 : lat < 85.05) (hz : zoom ≤ 18) :
    |lon - tile2lon (lon2tile lon zoom) zoom| ≤ 360 / 2 ^ zoom
    ∧ |lat - tile2lat (lat2tile lat zoom) zoom|
        ≤ tile2lat (lat2tile lat zoom) zoom - tile2lat (lat2tile lat zoom + 1) zoom := by
  have h2z : (0 : ℝ) < 2 ^ zoom := by positivity
  constructor
  · have ht0 : 0 ≤ (lon + 180) / 360 * 2 ^ zoom :=
      mul_nonneg (div_nonneg (by linarith) (by norm_num)) h2z.le
    have hx : lon2tile lon zoom = ⌊(lon + 180) / 360 * 2 ^ zoom⌋ := pyInt_of_nonneg ht0
    set t : ℝ := (lon + 180) / 360 * 2 ^ zoom with hts
    have hfl : (⌊t⌋ : ℝ) ≤ t := Int.floor_le t
    have hfu : t < ⌊t⌋ + 1 := Int.lt_floor_add_one t
    have key : lon - tile2lon ⌊t⌋ zoom = (t - ⌊t⌋) * 360 / 2 ^ zoom := by
      unfold tile2lon
      rw [hts]
      field_simp
      ring
    have hnn : 0 ≤ (t - ⌊t⌋) * 360 / 2 ^ zoom :=
      div_nonneg (by nlinarith) h2z.le
    rw [hx, key, abs_of_nonneg hnn]
    gcongr
    nlinarith
  · have hb := mercY_band hlat1.le hlat2.le zoom
    have hy : lat2tile lat zoom = ⌊mercY lat zoom⌋ := pyInt_of_nonneg hb.1.le
    have hfl2 : (⌊mercY lat zoom⌋ : ℝ) ≤ mercY lat zoom := Int.floor_le _
    have hfu2 : mercY lat zoom < ⌊mercY lat zoom⌋ + 1 := Int.lt_floor_add_one _
    have hinv : tile2latR (mercY lat zoom) zoom = lat := tile2latR_mercY hlat1.le hlat2.le zoom
    have hupper : lat ≤ tile2lat ⌊mercY lat zoom⌋ zoom := by
      have h := tile2latR_anti hfl2 zoom
      rw [hinv] at h
      exact h
    have hlower : tile2lat (⌊mercY lat zoom⌋ + 1) zoom < lat := by
      have hm : mercY lat zoom < ((⌊mercY lat zoom⌋ + 1 : ℤ) : ℝ) := by
        push_cast
        linarith
      have h := tile2latR_strict_anti hm zoom
      rw [hinv] at h
      exact h
    rw [hy, abs_of_nonpos (by linarith)]
    linarith

/-- Witness for `tile_roundtrip_within_one_tile` at longitude -90,
latitude 0, zoom 1. -/
theorem tile_roundtrip_within_one_tile_witness :
    |(-90 : ℝ) - tile2lon (lon2tile (-90) 1) 1| ≤ 360 / 2 ^ 1
    ∧ |(0 : ℝ) - tile2lat (lat2tile 0 1) 1|
        ≤ tile2lat (lat2tile 0 1) 1 - tile2lat (lat2tile 0 1 + 1) 1 :=
  tile_roundtrip_within_one_tile (-90) 0 1 (by norm_num) (by norm_num) (by norm_num)
    (by norm_num) (by norm_num)

/- ### Interval computation of the zoom-16 example row

The example latitude 51.617864 in radians is `51.617864 * π / 180`.  Its
sine/cosine are bounded by Taylor bounds at 1/32 of the angle followed by
five double-angle steps, giving tangent bounds tight enough to locate the
Mercator row between the tile boundaries 21760 and 21761. -/

theorem exw_bounds : (0.02815317748895 : ℝ) < 51.617864 * π / 180 / 32
    ∧ 51.617864 * π / 180 / 32 < 0.02815317748896 := by
  have h1 : (3.14159265358979323846 : ℝ) < π := Real.pi_gt_d20
  have h2 : π < 3.14159265358979323847 := Real.pi_lt_d20
  constructor <;> nlinarith

theorem ladder_sc32 :
    ((0.028149425727 : ℝ) ≤ Real.sin (51.617864 * π / 180 / 32)
      ∧ Real.sin (51.617864 * π / 180 / 32) ≤ 0.028149491168)
    ∧ (0.999603666579 : ℝ) ≤ Real.cos (51.617864 * π / 180 / 32)
    ∧ Real.cos (51.617864 * π / 180 / 32) ≤ 0.999603732019 := by
  obtain ⟨hwl, hwu⟩ := exw_bounds
  set x : ℝ := 51.617864 * π / 180 / 32 with hxdef
  have hx0 : (0 : ℝ) < x := by linarith
  have habs : |x| = x := abs_of_pos hx0
  have hs := Real.sin_bound (show |x| ≤ 1 by rw [habs]; linarith)
  have hc := Real.cos_bound (show |x| ≤ 1 by rw [habs]; linarith)
  rw [habs] at hs hc
  have h2u : x ^ 2 ≤ 0.02815317748896 ^ 2 := pow_le_pow_left hx0.le hwu.le 2
  have h2l : (0.02815317748895 : ℝ) ^ 2 ≤ x ^ 2 := pow_le_pow_left (by norm_num) hwl.le 2
  have h3u : x ^ 3 ≤ 0.02815317748896 ^ 3 := pow_le_pow_left hx0.le hwu.le 3
  have h3l : (0.02815317748895 : ℝ) ^ 3 ≤ x ^ 3 := pow_le_pow_left (by norm_num) hwl.le 3
  have h4u : x ^ 4 ≤ 0.02815317748896 ^ 4 := pow_le_pow_left hx0.le hwu.le 4
  obtain ⟨hs1, hs2⟩ := abs_le.mp hs
  obtain ⟨hc1, hc2⟩ := abs_le.mp hc
  refine ⟨⟨by nlinarith, by nlinarith⟩, by nlinarith, by nlinarith⟩

theorem ladder_sc16 :
    ((0.056276538337 : ℝ) ≤ Real.sin (51.617864 * π / 180 / 16)
      ∧ Real.sin (51.617864 * π / 180 / 16) ≤ 0.056276672852)
    ∧ (0.998415212293 : ℝ) ≤ Real.cos (51.617864 * π / 180 / 16)
    ∧ Real.cos (51.617864 * π / 180 / 16) ≤ 0.998415219663 := by
  obtain ⟨⟨hsl, hsu⟩, hcl, hcu⟩ := ladder_sc32
  have hrw : (51.617864 * π / 180 / 16 : ℝ) = 2 * (51.617864 * π / 180 / 32) := by ring
  rw [hrw, Real.sin_two_mul, cos_double_sin]
  set s := Real.sin (51.617864 * π / 180 / 32)
  set c := Real.cos (51.617864 * π / 180 / 32)
  have hs0 : (0 : ℝ) ≤ s := le_trans (by norm_num) hsl
  have hc0 : (0 : ℝ) ≤ c := le_trans (by norm_num) hcl
  have hm1 : s * c ≤ 0.028149491168 * 0.999603732019 :=
    mul_le_mul hsu hcu hc0 (by norm_num)
  have hm2 : (0.028149425727 : ℝ) * 0.999603666579 ≤ s * c :=
    mul_le_mul hsl hcl (by norm_num) hs0
  have hq1 : s ^ 2 ≤ 0.028149491168 ^ 2 := pow_le_pow_left hs0 hsu 2
  have hq2 : (0.028149425727 : ℝ) ^ 2 ≤ s ^ 2 := pow_le_pow_left (by norm_num) hsl 2
  refine ⟨⟨by nlinarith, by nlinarith⟩, by nlinarith, by nlinarith⟩

theorem ladder_sc8 :
    ((0.112374703941 : ℝ) ≤ Real.sin (51.617864 * π / 180 / 8)
      ∧ Real.sin (51.617864 * π / 180 / 8) ≤ 0.112374973375)
    ∧ (0.993665872185 : ℝ) ≤ Real.cos (51.617864 * π / 180 / 8)
    ∧ Real.cos (51.617864 * π / 180 / 8) ≤ 0.993665902466 := by
  obtain ⟨⟨hsl, hsu⟩, hcl, hcu⟩ := ladder_sc16
  have hrw : (51.617864 * π / 180 / 8 : ℝ) = 2 * (51.617864 * π / 180 / 16) := by ring
  rw [hrw, Real.sin_two_mul, cos_double_sin]
  set s := Real.sin (51.617864 * π / 180 / 16)
  set c := Real.cos (51.617864 * π / 180 / 16)
  have hs0 : (0 : ℝ) ≤ s := le_trans (by norm_num) hsl
  have hc0 : (0 : ℝ) ≤ c := le_trans (by norm_num) hcl
  have hm1 : s * c ≤ 0.056276672852 * 0.998415219663 :=
    mul_le_mul hsu hcu hc0 (by norm_num)
  have hm2 : (0.056276538337 : ℝ) * 0.998415212293 ≤ s * c :=
    mul_le_mul hsl hcl (by norm_num) hs0
  have hq1 : s ^ 2 ≤ 0.056276672852 ^ 2 := pow_le_pow_left hs0 hsu 2
  have hq2 : (0.056276538337 : ℝ) ^ 2 ≤ s ^ 2 := pow_le_pow_left (by norm_num) hsl 2
  refine ⟨⟨by nlinarith, by nlinarith⟩, by nlinarith, by nlinarith⟩

theorem ladder_sc4 :
    ((0.223325816406 : ℝ) ≤ Real.sin (51.617864 * π / 180 / 4)
      ∧ Real.sin (51.617864 * π / 180 / 4) ≤ 0.223326358667)
    ∧ (0.974743730717 : ℝ) ≤ Real.cos (51.617864 * π / 180 / 4)
    ∧ Real.cos (51.617864 * π / 180 / 4) ≤ 0.974743851829 := by
  obtain ⟨⟨hsl, hsu⟩, hcl, hcu⟩ := ladder_sc8
  have hrw : (51.617864 * π / 180 / 4 : ℝ) = 2 * (51.617864 * π / 180 / 8) := by ring
  rw [hrw, Real.sin_two_mul, cos_double_sin]
  set s := Real.sin (51.617864 * π / 180 / 8)
  set c := Real.cos (51.617864 * π / 180 / 8)
  have hs0 : (0 : ℝ) ≤ s := le_trans (by norm_num) hsl
  have hc0 : (0 : ℝ) ≤ c := le_trans (by norm_num) hcl
  have hm1 : s * c ≤ 0.112374973375 * 0.993665902466 :=
    mul_le_mul hsu hcu hc0 (by norm_num)
  have hm2 : (0.112374703941 : ℝ) * 0.993665872185 ≤ s * c :=
    mul_le_mul hsl hcl (by norm_num) hs0
  have hq1 : s ^ 2 ≤ 0.112374973375 ^ 2 := pow_le_pow_left hs0 hsu 2
  have hq2 : (0.112374703941 : ℝ) ^ 2 ≤ s ^ 2 := pow_le_pow_left (by norm_num) hsl 2
  refine ⟨⟨by nlinarith, by nlinarith⟩, by nlinarith, by nlinarith⟩

theorem ladder_sc2 :
    ((0.435370878898 : ℝ) ≤ Real.sin (51.617864 * π / 180 / 2)
      ∧ Real.sin (51.617864 * π / 180 / 2) ≤ 0.435371990125)
    ∧ (0.900250675049 : ℝ) ≤ Real.cos (51.617864 * π / 180 / 2)
    ∧ Real.cos (51.617864 * π / 180 / 2) ≤ 0.900251159454 := by
  obtain ⟨⟨hsl, hsu⟩, hcl, hcu⟩ := ladder_sc4
  have hrw : (51.617864 * π / 180 / 2 : ℝ) = 2 * (51.617864 * π / 180 / 4) := by ring
  rw [hrw, Real.sin_two_mul, cos_double_sin]
  set s := Real.sin (51.617864 * π / 180 / 4)
  set c := Real.cos (51.617864 * π / 180 / 4)
  have hs0 : (0 : ℝ) ≤ s := le_trans (by norm_num) hsl
  have hc0 : (0 : ℝ) ≤ c := le_trans (by norm_num) hcl
  have hm1 : s * c ≤ 0.223326358667 * 0.974743851829 :=
    mul_le_mul hsu hcu hc0 (by norm_num)
  have hm2 : (0.223325816406 : ℝ) * 0.974743730717 ≤ s * c :=
    mul_le_mul hsl hcl (by norm_num) hs0
  have hq1 : s ^ 2 ≤ 0.223326358667 ^ 2 := pow_le_pow_left hs0 hsu 2
  have hq2 : (0.223325816406 : ℝ) ^ 2 ≤ s ^ 2 := pow_le_pow_left (by norm_num) hsl 2
  refine ⟨⟨by nlinarith, by nlinarith⟩, by nlinarith, by nlinarith⟩

theorem ladder_sc1 :
    ((0.783885855249 : ℝ) ≤ Real.sin (51.617864 * π / 180)
      ∧ Real.sin (51.617864 * π / 180) ≤ 0.783888277808)
    ∧ (0.620902460429 : ℝ) ≤ Real.cos (51.617864 * π / 180)
    ∧ Real.cos (51.617864 * π / 180) ≤ 0.620904395616 := by
  obtain ⟨⟨hsl, hsu⟩, hcl, hcu⟩ := ladder_sc2
  have hrw : (51.617864 * π / 180 : ℝ) = 2 * (51.617864 * π / 180 / 2) := by ring
  rw [hrw, Real.sin_two_mul, cos_double_sin]
  set s := Real.sin (51.617864 * π / 180 / 2)
  set c := Real.cos (51.617864 * π / 180 / 2)
  have hs0 : (0 : ℝ) ≤ s := le_trans (by norm_num) hsl
  have hc0 : (0 : ℝ) ≤ c := le_trans (by norm_num) hcl
  have hm1 : s * c ≤ 0.435371990125 * 0.900251159454 :=
    mul_le_mul hsu hcu hc0 (by norm_num)
  have hm2 : (0.435370878898 : ℝ) * 0.900250675049 ≤ s * c :=
    mul_le_mul hsl hcl (by norm_num) hs0
  have hq1 : s ^ 2 ≤ 0.435371990125 ^ 2 := pow_le_pow_left hs0 hsu 2
  have hq2 : (0.435370878898 : ℝ) ^ 2 ≤ s ^ 2 := pow_le_pow_left (by norm_num) hsl 2
  refine ⟨⟨by nlinarith, by nlinarith⟩, by nlinarith, by nlinarith⟩

theorem tan_ex_bounds :
    (1.262490426519 : ℝ) ≤ Real.tan (51.617864 * π / 180)
    ∧ Real.tan (51.617864 * π / 180) ≤ 1.262498263039 := by
  obtain ⟨⟨hsl, hsu⟩, hcl, hcu⟩ := ladder_sc1
  have hcpos : (0 : ℝ) < Real.cos (51.617864 * π / 180) := lt_of_lt_of_le (by norm_num) hcl
  rw [Real.tan_eq_sin_div_cos]
  constructor
  · rw [le_div_iff hcpos]
    nlinarith
  · rw [div_le_iff hcpos]
    nlinarith

theorem exp_b1_bounds :
    (2.8730631 : ℝ) ≤ Real.exp (43 * π / 128) ∧ Real.exp (43 * π / 128) ≤ 2.8730633 := by
  have h1 : (3.14159265358979323846 : ℝ) < π := Real.pi_gt_d20
  have h2 : π < 3.14159265358979323847 := Real.pi_lt_d20
  have hxl : (0.05537878206532 : ℝ) < 43 * π / 128 - 1 := by nlinarith
  have hxu : 43 * π / 128 - 1 < 0.05537878206533 := by nlinarith
  set x : ℝ := 43 * π / 128 - 1 with hxdef
  have hx0 : (0 : ℝ) < x := lt_trans (show (0 : ℝ) < 0.05537878206532 by norm_num) hxl
  have hx1 : x ≤ 1 := le_of_lt (lt_trans hxu (by norm_num))
  have habs : |x| = x := abs_of_pos hx0
  have hb := Real.exp_bound (show |x| ≤ 1 by rw [habs]; exact hx1) (n := 5) (by norm_num)
  have hsum : ∑ m ∈ Finset.range 5, x ^ m / m.factorial
      = 1 + x + x ^ 2 / 2 + x ^ 3 / 6 + x ^ 4 / 24 := by
    simp [Finset.sum_range_succ, Nat.factorial]
  rw [hsum, habs] at hb
  have hbound : (((5 : ℕ).succ : ℝ)) / (((5 : ℕ).factorial : ℝ) * (5 : ℕ)) = 1 / 100 := by
    norm_num [Nat.factorial]
  rw [hbound] at hb
  obtain ⟨hb1, hb2⟩ := abs_le.mp hb
  have h2u : x ^ 2 ≤ 0.05537878206533 ^ 2 := pow_le_pow_left hx0.le hxu.le 2
  have h2l : (0.05537878206532 : ℝ) ^ 2 ≤ x ^ 2 := pow_le_pow_left (by norm_num) hxl.le 2
  have h3u : x ^ 3 ≤ 0.05537878206533 ^ 3 := pow_le_pow_left hx0.le hxu.le 3
  have h3l : (0.05537878206532 : ℝ) ^ 3 ≤ x ^ 3 := pow_le_pow_left (by norm_num) hxl.le 3
  have h4u : x ^ 4 ≤ 0.05537878206533 ^ 4 := pow_le_pow_left hx0.le hxu.le 4
  have h4l : (0.05537878206532 : ℝ) ^ 4 ≤ x ^ 4 := pow_le_pow_left (by norm_num) hxl.le 4
  have h5u : x ^ 5 ≤ 0.05537878206533 ^ 5 := pow_le_pow_left hx0.le hxu.le 5
  have hexl : (1.05694087 : ℝ) ≤ Real.exp x := by linarith
  have hexu : Real.exp x ≤ 1.05694090 := by linarith
  have hsplit : Real.exp (43 * π / 128) = Real.exp 1 * Real.exp x := by
    rw [← Real.exp_add]
    congr 1
    rw [hxdef]
    ring
  have hel := Real.exp_one_gt_d9
  have heu := Real.exp_one_lt_d9
  have hep : (0 : ℝ) < Real.exp 1 := Real.exp_pos 1
  have hexp0 : (0 : ℝ) < Real.exp x := Real.exp_pos x
  rw [hsplit]
  have hprodl : (2.7182818283 : ℝ) * 1.05694087 ≤ Real.exp 1 * Real.exp x :=
    mul_le_mul hel.le hexl (by norm_num) hep.le
  have hprodu : Real.exp 1 * Real.exp x ≤ 2.7182818286 * 1.05694090 :=
    mul_le_mul heu.le hexu hexp0.le (by norm_num)
  constructor
  · linarith [show (2.8730631 : ℝ) ≤ 2.7182818283 * 1.05694087 by norm_num]
  · linarith [show (2.7182818286 : ℝ) * 1.05694090 ≤ 2.8730633 by norm_num]

theorem exp_b2_bounds :
    (2.8727876 : ℝ) ≤ Real.exp (11007 * π / 32768)
    ∧ Real.exp (11007 * π / 32768) ≤ 2.8727879 := by
  have h1 : (3.14159265358979323846 : ℝ) < π := Real.pi_gt_d20
  have h2 : π < 3.14159265358979323847 := Real.pi_lt_d20
  have hxl : (0.05528290826607 : ℝ) < 11007 * π / 32768 - 1 := by nlinarith
  have hxu : 11007 * π / 32768 - 1 < 0.05528290826608 := by nlinarith
  set x : ℝ := 11007 * π / 32768 - 1 with hxdef
  have hx0 : (0 : ℝ) < x := lt_trans (show (0 : ℝ) < 0.05528290826607 by norm_num) hxl
  have hx1 : x ≤ 1 := le_of_lt (lt_trans hxu (by norm_num))
  have habs : |x| = x := abs_of_pos hx0
  have hb := Real.exp_bound (show |x| ≤ 1 by rw [habs]; exact hx1) (n := 5) (by norm_num)
  have hsum : ∑ m ∈ Finset.range 5, x ^ m / m.factorial
      = 1 + x + x ^ 2 / 2 + x ^ 3 / 6 + x ^ 4 / 24 := by
    simp [Finset.sum_range_succ, Nat.factorial]
  rw [hsum, habs] at hb
  have hbound : (((5 : ℕ).succ : ℝ)) / (((5 : ℕ).factorial : ℝ) * (5 : ℕ)) = 1 / 100 := by
    norm_num [Nat.factorial]
  rw [hbound] at hb
  obtain ⟨hb1, hb2⟩ := abs_le.mp hb
  have h2u : x ^ 2 ≤ 0.05528290826608 ^ 2 := pow_le_pow_left hx0.le hxu.le 2
  have h2l : (0.05528290826607 : ℝ) ^ 2 ≤ x ^ 2 := pow_le_pow_left (by norm_num) hxl.le 2
  have h3u : x ^ 3 ≤ 0.05528290826608 ^ 3 := pow_le_pow_left hx0.le hxu.le 3
  have h3l : (0.05528290826607 : ℝ) ^ 3 ≤ x ^ 3 := pow_le_pow_left (by norm_num) hxl.le 3
  have h4u : x ^ 4 ≤ 0.05528290826608 ^ 4 := pow_le_pow_left hx0.le hxu.le 4
  have h4l : (0.05528290826607 : ℝ) ^ 4 ≤ x ^ 4 := pow_le_pow_left (by norm_num) hxl.le 4
  have h5u : x ^ 5 ≤ 0.05528290826608 ^ 5 := pow_le_pow_left hx0.le hxu.le 5
  have hexl : (1.05683953 : ℝ) ≤ Real.exp x := by linarith
  have hexu : Real.exp x ≤ 1.05683957 := by linarith
  have hsplit : Real.exp (11007 * π / 32768) = Real.exp 1 * Real.exp x := by
    rw [← Real.exp_add]
    congr 1
    rw [hxdef]
    ring
  have hel := Real.exp_one_gt_d9
  have heu := Real.exp_one_lt_d9
  have hep : (0 : ℝ) < Real.exp 1 := Real.exp_pos 1
  have hexp0 : (0 : ℝ) < Real.exp x := Real.exp_pos x
  rw [hsplit]
  have hprodl : (2.7182818283 : ℝ) * 1.05683953 ≤ Real.exp 1 * Real.exp x :=
    mul_le_mul hel.le hexl (by norm_num) hep.le
  have hprodu : Real.exp 1 * Real.exp x ≤ 2.7182818286 * 1.05683957 :=
    mul_le_mul heu.le hexu hexp0.le (by norm_num)
  constructor
  · linarith [show (2.8727876 : ℝ) ≤ 2.7182818283 * 1.05683953 by norm_num]
  · linarith [show (2.7182818286 : ℝ) * 1.05683957 ≤ 2.8727879 by norm_num]

theorem sinh_b1_lower : (1.2625008 : ℝ) ≤ Real.sinh (43 * π / 128) := by
  obtain ⟨hl, _⟩ := exp_b1_bounds
  have hpos : (0 : ℝ) < Real.exp (43 * π / 128) := Real.exp_pos _
  have hinv : (Real.exp (43 * π / 128))⁻¹ ≤ (2.8730631 : ℝ)⁻¹ :=
    inv_le_inv_of_le (by norm_num) hl
  rw [Real.sinh_eq, Real.exp_neg]
  have : ((2.8730631 : ℝ) - (2.8730631 : ℝ)⁻¹) / 2 ≥ 1.2625008 := by norm_num
  linarith

theorem sinh_b2_upper : Real.sinh (11007 * π / 32768) ≤ 1.2623623 := by
  obtain ⟨hl, hu⟩ := exp_b2_bounds
  have hpos : (0 : ℝ) < Real.exp (11007 * π / 32768) := Real.exp_pos _
  have hinv : (2.8727879 : ℝ)⁻¹ ≤ (Real.exp (11007 * π / 32768))⁻¹ :=
    inv_le_inv_of_le hpos hu
  rw [Real.sinh_eq, Real.exp_neg]
  have : ((2.8727879 : ℝ) - (2.8727879 : ℝ)⁻¹) / 2 ≤ 1.2623623 := by norm_num
  linarith

/-- The Mercator row of the example point at zoom 16: the spec says 21751,
the code computes 21760. -/
theorem lat2tile_zoom16_example : lat2tile 51.617864 16 = 21760 := by
  have hme := mercY_eq_arsinh (show (-85.05 : ℝ) ≤ 51.617864 by norm_num)
    (show (51.617864 : ℝ) ≤ 85.05 by norm_num) 16
  obtain ⟨htl, htu⟩ := tan_ex_bounds
  have hs1 := sinh_b1_lower
  have hs2 := sinh_b2_upper
  have hπ := Real.pi_pos
  have hLu : Real.arsinh (Real.tan (51.617864 * π / 180)) ≤ 43 * π / 128 := by
    have h := Real.arsinh_le_arsinh.mpr
      (show Real.tan (51.617864 * π / 180) ≤ Real.sinh (43 * π / 128) by linarith)
    rwa [Real.arsinh_sinh] at h
  have hLl : 11007 * π / 32768 < Real.arsinh (Real.tan (51.617864 * π / 180)) := by
    have h := Real.arsinh_lt_arsinh.mpr
      (show Real.sinh (11007 * π / 32768) < Real.tan (51.617864 * π / 180) by linarith)
    rwa [Real.arsinh_sinh] at h
  have hqu : Real.arsinh (Real.tan (51.617864 * π / 180)) / π ≤ 43 / 128 := by
    rw [div_le_iff hπ]
    linarith
  have hql : (11007 : ℝ) / 32768 < Real.arsinh (Real.tan (51.617864 * π / 180)) / π := by
    rw [lt_div_iff hπ]
    linarith
  have hmu : mercY 51.617864 16 < 21761 := by
    rw [hme]
    nlinarith
  have hml : (21760 : ℝ) ≤ mercY 51.617864 16 := by
    rw [hme]
    nlinarith
  unfold lat2tile
  apply pyInt_eq_of_bounds (by linarith)
  · push_cast
    linarith
  · push_cast
    linarith

/- ### Claim C3, amended theorem -/

/-- Claim C3 (amended): `geoToTile` is a pure function (a Lean function of
its arguments, hence deterministic); at zoom 0 every point with longitude
in [-180, 180) and latitude in the Mercator band maps to tile (0, 0); and
the example point (lon -0.787166, lat 51.617864) at zoom 16 maps to tile
x = 32624, y = 21760 — not the spec's x = 32676, y = 21751. -/
theorem geoToTile_zoom0_and_example :
    (∀ lon lat : ℝ, -180 ≤ lon → lon < 180 → -85.05 ≤ lat → lat ≤ 85.05 →
      lon2tile lon 0 = 0 ∧ lat2tile lat 0 = 0)
    ∧ lon2tile (-0.787166) 16 = 32624
    ∧ lat2tile 51.617864 16 = 21760 := by
  refine ⟨?_, ?_, lat2tile_zoom16_example⟩
  · intro lon lat hlon1 hlon2 hlat1 hlat2
    constructor
    · unfold lon2tile
      apply pyInt_eq_of_bounds
      · have : (0 : ℝ) ≤ (lon + 180) / 360 := by linarith
        nlinarith
      · push_cast
        nlinarith
      · push_cast
        nlinarith
    · have hb := mercY_band hlat1 hlat2 0
      unfold lat2tile
      apply pyInt_eq_of_bounds hb.1.le
      · push_cast
        linarith [hb.1]
      · push_cast
        have h2 := hb.2
        norm_num at h2
        linarith
  · unfold lon2tile
    apply pyInt_eq_of_bounds <;> norm_num

/-- Witness for `geoToTile_zoom0_and_example`: the zoom-0 statement applied
at the concrete in-band point (-90, 0). -/
theorem geoToTile_zoom0_and_example_witness :
    lon2tile (-90) 0 = 0 ∧ lat2tile 0 0 = 0 :=
  geoToTile_zoom0_and_example.1 (-90) 0 (by norm_num) (by norm_num) (by norm_num) (by norm_num)

end GpsDisplay
